import Mathlib

/-!
Verification development for the Quiz-Grid application.

The definitions below are a shallow embedding of the quiz core:
`src/utils/questions.js` (question transformation and selection),
`src/server.js` (quiz session state machine, seen-question ledger,
scoring, leaderboard) and `src/models/User.js` (best score).

Randomness (`Math.random`-driven Fisher-Yates shuffles) is modelled by
explicit shuffle parameters; theorems that depend on the shuffle assume
it returns a permutation of its input.  JS strings are modelled by Lean
`String` (the witnesses only use ASCII, where the two agree).
-/

namespace QuizGrid

/-- `\w` of the JS regex `&[#\w]+;` together with `#`: ASCII letters,
digits, underscore, and the hash sign. -/
def isEntityChar (c : Char) : Bool :=
  c = '#' || ('a' ≤ c && c ≤ 'z') || ('A' ≤ c && c ≤ 'Z') ||
  ('0' ≤ c && c ≤ '9') || c = '_'

/-- The `htmlEntities` lookup table of `src/utils/questions.js`. -/
def htmlEntities (e : String) : Option String :=
  if e = "&quot;" then some "\"" else
  if e = "&#039;" then some "'" else
  if e = "&amp;" then some "&" else
  if e = "&lt;" then some "<" else
  if e = "&gt;" then some ">" else
  if e = "&nbsp;" then some " " else
  if e = "&apos;" then some "'" else
  none

/-- One step of the global-regex replace `text.replace(/&[#\w]+;/g, ...)`:
at `'&'` take the maximal run of entity characters; if it is non-empty and
followed by `';'` the whole `&...;` is replaced through the table (unknown
entities are kept verbatim, as `htmlEntities[entity] || entity` does).
The `fuel` argument is a termination device only: each call consumes at
least one character, so a fuel equal to the input length never runs out. -/
def decodeAux : Nat → List Char → List Char
  | 0, l => l
  | _ + 1, [] => []
  | fuel + 1, '&' :: rest =>
    let run := rest.takeWhile isEntityChar
    let rest2 := rest.dropWhile isEntityChar
    if run = [] then '&' :: decodeAux fuel rest
    else
      match rest2 with
      | ';' :: tail =>
        let ent := String.mk ('&' :: (run ++ [';']))
        ((htmlEntities ent).getD ent).toList ++ decodeAux fuel tail
      | _ => '&' :: decodeAux fuel rest
  | fuel + 1, c :: rest => c :: decodeAux fuel rest

/-- `decodeHtmlEntities` from `src/utils/questions.js`.  The JS guard
`if (!text) return text` only short-circuits the empty string, on which
the replace is the identity anyway. -/
def decodeHtmlEntities (s : String) : String :=
  String.mk (decodeAux s.toList.length s.toList)

/-- JS `\s` restricted to the ASCII whitespace the application's data
contains (space, tab, carriage return, newline). -/
def isJsWhitespace (c : Char) : Bool :=
  c = ' ' || c = '\t' || c = '\r' || c = '\n'

/-- `question.toLowerCase().replace(/\s+/g, '').substring(0, 50)` from
`transformQuestion` (`src/utils/questions.js` line 183): the derived
question identifier. -/
def normalizeQuestionId (q : String) : String :=
  String.mk ((((q.toList).map Char.toLower).filter
    (fun c => ¬ isJsWhitespace c)).take 50)

/-- A raw question as returned by the Trivia API. -/
structure ApiQuestion where
  question : String
  correct_answer : String
  incorrect_answers : List String
  category : String
  difficulty : String
  qtype : String
deriving Repr, DecidableEq

/-- The result of `transformQuestion`: the application's internal
question shape, including the tracking fields `_index`/`_questionId`. -/
structure TransformedQuestion where
  question : String
  optA : String
  optB : String
  optC : String
  optD : String
  answer : Option String
  category : String
  difficulty : String
  qtype : String
  idx : Option Nat
  questionId : String
deriving Repr, DecidableEq

/-- `transformQuestion` from `src/utils/questions.js`.  The Fisher-Yates
shuffle of the four options (driven by `Math.random`) is passed in as
`sh`; `shuffled[k] || ''` is modelled by `getD ""` (the JS fallback also
yields `''` and an absent slot is `undefined`, which the `||` turns into
`''` as well).  `answer` is `none` when `findIndex` lands outside `A`-`D`
(JS would produce `undefined`). -/
def transformQuestion (sh : List String → List String)
    (apiQuestion : ApiQuestion) (index : Option Nat) : TransformedQuestion :=
  let question := decodeHtmlEntities apiQuestion.question
  let correctAnswer := decodeHtmlEntities apiQuestion.correct_answer
  let incorrectAnswers := apiQuestion.incorrect_answers.map decodeHtmlEntities
  let allAnswers := correctAnswer :: incorrectAnswers
  let shuffled := sh allAnswers
  let correctIndex := shuffled.findIdx (fun ans => ans = correctAnswer)
  let answerKey := (["A", "B", "C", "D"]).get? correctIndex
  { question := question
    optA := (shuffled.get? 0).getD ""
    optB := (shuffled.get? 1).getD ""
    optC := (shuffled.get? 2).getD ""
    optD := (shuffled.get? 3).getD ""
    answer := answerKey
    category := apiQuestion.category
    difficulty := apiQuestion.difficulty
    qtype := apiQuestion.qtype
    idx := index
    questionId := normalizeQuestionId question }

/-- `fetchAmount` computation of `getQuestionsExcludingUsed`
(`src/utils/questions.js` lines 215-227): over-fetch when the ledger is
non-empty, capped at the API maximum of 50. -/
def fetchAmount (usedCount count : Nat) : Nat :=
  if 0 < usedCount then min (count + max usedCount 10) 50 else count

/-- The supplemental-fetch merge (`src/utils/questions.js` lines 241-260):
when the first batch is short of both the fetch size and the requested
count, one extra fetch happens and its results are appended after
dropping questions whose raw text already occurs in the first batch.
`supp = none` models the extra fetch throwing (the error is swallowed). -/
def mergeSupplemental (batch1 : List ApiQuestion)
    (supp : Option (List ApiQuestion)) (count famount : Nat) :
    List ApiQuestion :=
  if batch1.length < famount ∧ batch1.length < count then
    let additionalFetch := min (count - batch1.length + 5) (50 - batch1.length)
    if 0 < additionalFetch then
      match supp with
      | none => batch1
      | some additional =>
        if 0 < additional.length then
          let existing := batch1.map (·.question)
          batch1 ++ additional.filter (fun q => ¬ existing.contains q.question)
        else batch1
    else batch1
  else batch1

/-- `getQuestionsExcludingUsed` from `src/utils/questions.js` (lines
208-309), with the two provider calls resolved to data: `batch1` is the
first (successful) fetch result, `supp` the supplemental fetch outcome.
`shOpt i` drives the option shuffle of the `i`-th question and `shSel`
the final selection shuffle. -/
def getQuestionsExcludingUsed (usedQuestionIds : List String) (count : Nat)
    (batch1 : List ApiQuestion) (supp : Option (List ApiQuestion))
    (shOpt : Nat → List String → List String)
    (shSel : List TransformedQuestion → List TransformedQuestion) :
    Except String (List TransformedQuestion) :=
  if batch1.length = 0 then
    .error "No questions returned from API"
  else
    let famount := fetchAmount usedQuestionIds.length count
    let apiQuestions := mergeSupplemental batch1 supp count famount
    let transformedQuestions :=
      (apiQuestions.enum).map (fun p => transformQuestion (shOpt p.1) p.2 (some p.1))
    let availableQuestions := transformedQuestions.filter
      (fun q => ¬ usedQuestionIds.contains q.questionId)
    if availableQuestions.length < count then
      if apiQuestions.length < famount then
        .ok availableQuestions
      else if 0 < availableQuestions.length then
        .ok availableQuestions
      else
        .ok (transformedQuestions.take (min count transformedQuestions.length))
    else
      .ok ((shSel availableQuestions).take count)

/-! ## Quiz session state machine (`src/server.js`) -/

/-- A question as stored in `req.session.currentQuiz.questions`: the
transformed question with the tracking fields `_index`/`_questionId`
stripped (`src/server.js` lines 1246-1250). -/
structure SessQuestion where
  question : String
  optA : String
  optB : String
  optC : String
  optD : String
  answer : Option String
  category : String
  difficulty : String
  qtype : String
deriving Repr, DecidableEq

/-- The destructuring `const { _index, _questionId, ...question } = q`. -/
def stripQuestion (q : TransformedQuestion) : SessQuestion :=
  { question := q.question, optA := q.optA, optB := q.optB, optC := q.optC
    optD := q.optD, answer := q.answer, category := q.category
    difficulty := q.difficulty, qtype := q.qtype }

/-- `req.session.currentQuiz` (`src/server.js` lines 1246-1255).  The JS
`answers` object (keys are question positions) is modelled as an
association list; `startTime` is a millisecond timestamp. -/
structure Quiz where
  questions : List SessQuestion
  questionIds : List String
  answers : List (Nat × String)
  currentQuestionIndex : Nat
  startTime : Nat
deriving Repr, DecidableEq

/-- Write `quiz.answers[k] = v` on the answers object: overwrite the
entry if the key exists, otherwise add it. -/
def setAnswer (m : List (Nat × String)) (k : Nat) (v : String) :
    List (Nat × String) :=
  if m.any (fun p => p.1 = k) then
    m.map (fun p => if p.1 = k then (k, v) else p)
  else m ++ [(k, v)]

/-- Read `quiz.answers[k]` (`undefined` when the key is absent). -/
def getAnswer (m : List (Nat × String)) (k : Nat) : Option String :=
  (m.find? (fun p => p.1 = k)).map (fun p => p.2)

/-- One per-question entry of the submit response's `results` array
(`src/server.js` lines 1474-1486). -/
structure ResultEntry where
  questionNumber : Nat
  question : String
  optA : String
  optB : String
  optC : String
  optD : String
  userAnswer : Option String
  correctAnswer : Option String
  isCorrect : Bool
deriving Repr, DecidableEq

/-- `req.session.quizResults` (`src/server.js` lines 1493-1501). -/
structure QuizResult where
  score : Nat
  correctCount : Nat
  totalQuestions : Nat
  incorrectCount : Nat
  timeTaken : Nat
  results : List ResultEntry
  submittedAt : Nat
deriving Repr, DecidableEq

/-- The quiz-relevant slice of one user's session bag. -/
structure QuizState where
  currentQuiz : Option Quiz
  quizResults : Option QuizResult
  usedQuestionIds : List String
deriving Repr, DecidableEq

/-- A fresh session: no quiz, no result, empty ledger. -/
def initState : QuizState :=
  { currentQuiz := none, quizResults := none, usedQuestionIds := [] }

/-- The error kinds of the quiz endpoints (§7 of the spec). -/
inductive QuizApiError where
  | NoActiveSession
  | InvalidIndex
  | NoResult
deriving Repr, DecidableEq

/-- `true` exactly on `.ok`. -/
def exceptIsOk {ε α : Type} : Except ε α → Bool
  | .ok _ => true
  | .error _ => false

/-- The ledger trim performed both by `initializeUsedQuestions`
(`src/server.js` lines 1153-1155) and after merging newly served ids
(lines 1238-1239): when more than 100 entries, `slice(-50)` keeps the
last 50 (the most recently appended). -/
def trimUsedQuestions (l : List String) : List String :=
  if 100 < l.length then l.drop (l.length - 50) else l

/-- `POST /api/quiz/answer` (`src/server.js` lines 1345-1422), with the
session-missing and body-missing guards resolved (the model always has a
session bag and both body fields).  Returns the (possibly unchanged)
session state and the outcome. -/
def answerOp (s : QuizState) (questionIndex : Int) (ans : String) :
    QuizState × Except QuizApiError Unit :=
  match s.currentQuiz with
  | none => (s, .error .NoActiveSession)
  | some quiz =>
    let totalQuestions := quiz.questions.length
    if questionIndex < 0 ∨ (totalQuestions : Int) ≤ questionIndex then
      (s, .error .InvalidIndex)
    else
      let idx := questionIndex.toNat
      ({ s with currentQuiz := some { quiz with
          answers := setAnswer quiz.answers idx ans
          currentQuestionIndex := idx } }, .ok ())

/-- The scoring loop body of `POST /api/quiz/submit` (`src/server.js`
lines 1465-1487): one `results` entry per question.  `userAnswer || null`
maps both `undefined` and the falsy `''` to `null`; `isCorrect` is the
strict-equality comparison (two `undefined`s compare equal, matching
`Option.decEq`). -/
def scoreEntry (answers : List (Nat × String)) (i : Nat) (q : SessQuestion) :
    ResultEntry :=
  let userAnswer := getAnswer answers i
  { questionNumber := i + 1
    question := q.question
    optA := q.optA, optB := q.optB, optC := q.optC, optD := q.optD
    userAnswer := match userAnswer with
      | some v => if v = "" then none else some v
      | none => none
    correctAnswer := q.answer
    isCorrect := userAnswer = q.answer }

/-- `POST /api/quiz/submit` (`src/server.js` lines 1424-1547).  The score
line `Math.round((correctCount / totalQuestions) * 100)` is embedded as
the integer `(200 * c + t) / (2 * t)`, i.e. half-up rounding of
`100 * c / t`: for the session sizes the server produces (at most 10
questions) the double-precision computation agrees exactly with the
rational one, every tie (`t = 8`) being binary-exact.  `timeTaken` is
`Math.round((now - startTime) / 1000)` under the same convention.
The attempt persistence (lines 1521-1537) is a collaborator side effect
whose failure is swallowed and is not part of the session state. -/
def submitOp (s : QuizState) (now : Nat) :
    QuizState × Except QuizApiError QuizResult :=
  match s.currentQuiz with
  | none => (s, .error .NoActiveSession)
  | some quiz =>
    let questions := quiz.questions
    let totalQuestions := questions.length
    let results := questions.enum.map (fun p => scoreEntry quiz.answers p.1 p.2)
    let correctCount := results.countP (fun r => r.isCorrect)
    let score := if 0 < totalQuestions then
        (200 * correctCount + totalQuestions) / (2 * totalQuestions)
      else 0
    let quizResults : QuizResult :=
      { score := score
        correctCount := correctCount
        totalQuestions := totalQuestions
        incorrectCount := totalQuestions - correctCount
        timeTaken := (now - quiz.startTime + 500) / 1000
        results := results
        submittedAt := now }
    ({ s with quizResults := some quizResults, currentQuiz := none },
      .ok quizResults)

/-- `GET /api/quiz/results` (`src/server.js` lines 1591-1608): a pure
read of the stored result. -/
def readResults (s : QuizState) : QuizState × Except QuizApiError QuizResult :=
  match s.quizResults with
  | none => (s, .error .NoResult)
  | some r => (s, .ok r)

/-- `POST /api/quiz/reset` (`src/server.js` lines 1610-1618). -/
def resetOp (_s : QuizState) : QuizState :=
  { currentQuiz := none, quizResults := none, usedQuestionIds := [] }

/-- The amount clamping of `GET /api/quiz/start` (`src/server.js` lines
1192-1197): below 1 becomes 1, above 10 becomes 10. -/
def clampAmount (amount : Int) : Nat :=
  if amount < 1 then 1 else if 10 < amount then 10 else amount.toNat

/-- The success tail of `GET /api/quiz/start` (`src/server.js` lines
1227-1255) applied after the prior session was cleared and the ledger
trimmed: merge the served questions' ids into the ledger, trim again,
and install the new quiz (empty answers, cursor 0). -/
def serveQuestions (s : QuizState) (selectedQuestions : List TransformedQuestion)
    (now : Nat) : QuizState :=
  let selectedQuestionIds := selectedQuestions.map (fun q => q.questionId)
  { s with
    usedQuestionIds := trimUsedQuestions (s.usedQuestionIds ++ selectedQuestionIds)
    currentQuiz := some
      { questions := selectedQuestions.map stripQuestion
        questionIds := selectedQuestionIds
        answers := []
        currentQuestionIndex := 0
        startTime := now } }

/-- `GET /api/quiz/start` (`src/server.js` lines 1179-1342): the prior
quiz is cleared and the ledger trimmed (lines 1182-1183) *before* the
selection engine runs; a selection failure therefore leaves the session
with no active quiz.  `quizResults` is never touched. -/
def startQuizHandler (s : QuizState) (amount : Int)
    (fetch1 : Except String (List ApiQuestion)) (supp : Option (List ApiQuestion))
    (shOpt : Nat → List String → List String)
    (shSel : List TransformedQuestion → List TransformedQuestion)
    (now : Nat) : QuizState × Except String (List TransformedQuestion) :=
  let s1 := { s with currentQuiz := none,
                     usedQuestionIds := trimUsedQuestions s.usedQuestionIds }
  let validAmount := clampAmount amount
  match fetch1 with
  | .error e => (s1, .error e)
  | .ok batch1 =>
    match getQuestionsExcludingUsed s1.usedQuestionIds validAmount batch1 supp
        shOpt shSel with
    | .error e => (s1, .error e)
    | .ok selected => (serveQuestions s1 selected now, .ok selected)

/-- Abstract success of `GET /api/quiz/start`: the selection outcome is
taken as a parameter (the provider is nondeterministic). -/
def startQuizOk (s : QuizState) (selected : List TransformedQuestion)
    (now : Nat) : QuizState :=
  serveQuestions { s with currentQuiz := none,
                          usedQuestionIds := trimUsedQuestions s.usedQuestionIds }
    selected now

/-- `GET /api/quiz/start` when the provider/selection fails: the clear
and ledger trim have already happened. -/
def startQuizFail (s : QuizState) : QuizState :=
  { s with currentQuiz := none,
           usedQuestionIds := trimUsedQuestions s.usedQuestionIds }

/-- One caller-visible state-changing request for one user's session,
with all provider nondeterminism resolved in the event. -/
inductive Event where
  | startOk (selected : List TransformedQuestion) (now : Nat)
  | startFail
  | answerEv (questionIndex : Int) (ans : String)
  | submitEv (now : Nat)
  | resetEv
deriving Repr, DecidableEq

/-- The session-state transition of each request. -/
def step (s : QuizState) : Event → QuizState
  | .startOk selected now => startQuizOk s selected now
  | .startFail => startQuizFail s
  | .answerEv i a => (answerOp s i a).1
  | .submitEv now => (submitOp s now).1
  | .resetEv => resetOp s

/-- Run a request trace from a fresh session. -/
def runEvents (es : List Event) : QuizState :=
  es.foldl step initState

/-- "A quiz has been submitted since the last reset-like event": walks
the trace carrying the state; a successful submit raises the flag and
the events in `clearing` lower it. -/
def submittedSinceAux (clearing : Event → Bool) :
    QuizState → Bool → List Event → Bool
  | _, flag, [] => flag
  | s, flag, e :: es =>
    let flag2 :=
      if clearing e then false
      else match e with
        | .submitEv _ => if s.currentQuiz.isSome then true else flag
        | _ => flag
    submittedSinceAux clearing (step s e) flag2 es

/-- Whether `resetEv` is the event. -/
def isResetEvent : Event → Bool
  | .resetEv => true
  | _ => false

/-- Whether the event is a reset or a start (failed or not). -/
def isResetOrStartEvent : Event → Bool
  | .resetEv => true
  | .startOk _ _ => true
  | .startFail => true
  | _ => false

/-- A successful submit occurred after the last reset. -/
def submittedSinceLastReset (es : List Event) : Bool :=
  submittedSinceAux isResetEvent initState false es

/-- A successful submit occurred after the last reset or start. -/
def submittedSinceLastResetOrStart (es : List Event) : Bool :=
  submittedSinceAux isResetOrStartEvent initState false es

/-! ## History & leaderboard (`src/server.js` lines 1076-1144,
`src/models/User.js`) -/

/-- The leaderboard-relevant slice of a persisted user: username and the
scores of the quiz attempts (the only attempt field `GET /api/leaderboard`
and `getBestScore` read). -/
structure UserRec where
  username : String
  quizAttempts : List Int
deriving Repr, DecidableEq

/-- `getBestScore` from `src/models/User.js` (lines 94-97): `null` with
no attempts, otherwise `Math.max` over the attempt scores. -/
def getBestScore (u : UserRec) : Option Int :=
  match u.quizAttempts with
  | [] => none
  | a :: rest => some (rest.foldl max a)

/-- One entry of `playersWithScores` (`src/server.js` lines 1090-1095);
`averageScore` is dropped as no claim reads it. -/
structure Player where
  username : String
  bestScore : Option Int
  totalAttempts : Nat
deriving Repr, DecidableEq

/-- The map step of `src/server.js` lines 1080-1096: `null` for a user
with no attempts, their leaderboard entry otherwise. -/
def toPlayer (u : UserRec) : Option Player :=
  if u.quizAttempts.length = 0 then none
  else some { username := u.username, bestScore := getBestScore u
              totalAttempts := u.quizAttempts.length }

/-- The sort comparator of `src/server.js` lines 1098-1103. -/
def cmpPlayers (a b : Player) : Int :=
  match a.bestScore, b.bestScore with
  | none, none => 0
  | _, none => -1
  | none, _ => 1
  | some x, some y => y - x

/-- Stable insertion with respect to a JS comparator: the new element
goes after every already-placed element that does not have to come after
it.  On a consistent comparator this is the unique stable order that
`Array.prototype.sort` (stable since ES2019) produces. -/
def insertByCmp (cmp : Player → Player → Int) (a : Player) :
    List Player → List Player
  | [] => [a]
  | b :: bs => if cmp b a ≤ 0 then b :: insertByCmp cmp a bs else a :: b :: bs

/-- Stable sort by a JS comparator (insertion sort, processing the input
left to right). -/
def sortByCmp (cmp : Player → Player → Int) (l : List Player) : List Player :=
  l.foldl (fun acc a => insertByCmp cmp a acc) []

/-- `playersWithScores` (`src/server.js` lines 1080-1103): map users to
entries, drop the attempt-less ones, sort by best score descending. -/
def leaderboardPlayers (users : List UserRec) : List Player :=
  sortByCmp cmpPlayers (users.filterMap toPlayer)

/-- The `top10` slice (`src/server.js` line 1105). -/
def leaderboardTop10 (users : List UserRec) : List Player :=
  (leaderboardPlayers users).take 10

/-- `currentUserRank` (`src/server.js` lines 1117-1123): `findIndex` on
the full (non-truncated) ranked list by username, 1-based, `null` when
absent (`findIndex` gives `-1`, so `+ 1` gives the sentinel `0`). -/
def currentUserRank (users : List UserRec) (cu : UserRec) : Option Nat :=
  match (leaderboardPlayers users).findIdx? (fun p => p.username = cu.username) with
  | some i => some (i + 1)
  | none => none

/-- The sort key the comparator `cmpPlayers` realizes: a missing best
score sorts below every number. -/
def bestKey (p : Player) : WithBot Int :=
  match p.bestScore with
  | none => ⊥
  | some x => (x : WithBot Int)

/-! ## Selection intermediates and the spec-side selection policy -/

/-- The merged raw batch `apiQuestions` inside
`getQuestionsExcludingUsed`, exposed for stating selection properties. -/
def selectionBatch (usedQuestionIds : List String) (count : Nat)
    (batch1 : List ApiQuestion) (supp : Option (List ApiQuestion)) :
    List ApiQuestion :=
  mergeSupplemental batch1 supp count (fetchAmount usedQuestionIds.length count)

/-- The `transformedQuestions` list inside `getQuestionsExcludingUsed`. -/
def selectionTransformed (usedQuestionIds : List String) (count : Nat)
    (batch1 : List ApiQuestion) (supp : Option (List ApiQuestion))
    (shOpt : Nat → List String → List String) : List TransformedQuestion :=
  ((selectionBatch usedQuestionIds count batch1 supp).enum).map
    (fun p => transformQuestion (shOpt p.1) p.2 (some p.1))

/-- The `availableQuestions` pool inside `getQuestionsExcludingUsed`:
the transformed questions whose identifier is not in the ledger. -/
def selectionAvailable (usedQuestionIds : List String) (count : Nat)
    (batch1 : List ApiQuestion) (supp : Option (List ApiQuestion))
    (shOpt : Nat → List String → List String) : List TransformedQuestion :=
  (selectionTransformed usedQuestionIds count batch1 supp shOpt).filter
    (fun q => ¬ usedQuestionIds.contains q.questionId)

/-- Whether `getQuestionsExcludingUsed` takes the fallback-on-exhaustion
branch (`src/utils/questions.js` lines 292-296): everything was filtered
as seen and the raw batch was not short of the fetch size. -/
def fallbackTaken (usedQuestionIds : List String) (count : Nat)
    (batch1 : List ApiQuestion) (supp : Option (List ApiQuestion))
    (shOpt : Nat → List String → List String) : Bool :=
  let famount := fetchAmount usedQuestionIds.length count
  let batchAll := selectionBatch usedQuestionIds count batch1 supp
  let available := selectionAvailable usedQuestionIds count batch1 supp shOpt
  decide (available.length < count) && !(decide (batchAll.length < famount)) &&
    decide (available.length = 0)

/-- Modelled from the amended C2 (spec §4.2 step 5, with the corrected
precedence): the selection policy on the filtered pool.  When at least
`requestedCount` questions survive filtering, exactly `requestedCount`
are returned (shuffled prefix) regardless of raw-batch scarcity; only
when fewer survive do the scarcity, short-result, and fallback branches
apply, the short-result branch returning all survivors unshuffled. -/
def selectPolicySpec (requestedCount : Nat) (rawShort : Bool)
    (transformed available : List TransformedQuestion)
    (shSel : List TransformedQuestion → List TransformedQuestion) :
    List TransformedQuestion :=
  if requestedCount ≤ available.length then (shSel available).take requestedCount
  else if rawShort then available
  else if available.isEmpty then transformed.take requestedCount
  else available

/-! ## Helper lemmas -/

theorem find?_overwrite (m : List (Nat × String)) (k q : Nat) (v : String) :
    (m.map (fun p => if p.1 = k then (k, v) else p)).find?
        (fun p => decide (p.1 = q)) =
      if q = k then (m.find? (fun p => decide (p.1 = k))).map (fun _ => (k, v))
      else m.find? (fun p => decide (p.1 = q)) := by
  induction m with
  | nil => by_cases hq : q = k <;> simp [hq]
  | cons p m ih =>
    by_cases hq : q = k
    · subst hq
      by_cases hpk : p.1 = q <;>
        simp [List.find?_cons, hpk, ih]
    · by_cases hpk : p.1 = k
      · have hpq : ¬ p.1 = q := fun h => hq (h ▸ hpk ▸ rfl)
        simp [List.find?_cons, hpk, hq, ih, Ne.symm hq]
      · by_cases hpq : p.1 = q <;>
          simp [List.find?_cons, hpk, hq, hpq, ih]

/-- Reading the answers object after a write: the written key holds the
new value, every other key is untouched. -/
theorem getAnswer_setAnswer (m : List (Nat × String)) (k q : Nat) (v : String) :
    getAnswer (setAnswer m k v) q = if q = k then some v else getAnswer m q := by
  unfold setAnswer getAnswer
  by_cases hany : m.any (fun p => decide (p.1 = k)) = true
  · simp only [hany, if_true, find?_overwrite]
    by_cases hq : q = k
    · subst hq
      obtain ⟨x, hx, hpx⟩ := List.any_eq_true.mp hany
      have : (m.find? (fun p => decide (p.1 = q))).isSome := by
        rw [List.find?_isSome]
        exact ⟨x, hx, hpx⟩
      obtain ⟨y, hy⟩ := Option.isSome_iff_exists.mp this
      simp [hy]
    · simp [hq]
  · simp only [Bool.not_eq_true] at hany
    simp only [hany, Bool.false_eq_true, if_false, List.find?_append]
    by_cases hq : q = k
    · subst hq
      have hnone : m.find? (fun p => decide (p.1 = q)) = none := by
        rw [List.find?_eq_none]
        intro x hx
        have := (List.any_eq_false.mp hany) x hx
        simpa using this
      simp [hnone]
    · have h1 : List.find? (fun p => decide (p.1 = q)) [(k, v)] = none := by
        simp [List.find?, Ne.symm hq]
      cases hm : m.find? (fun p => decide (p.1 = q)) <;> simp [hm, h1, hq]

/-- Support for the label-present hypothesis of the scoring claim: a
question transformed from a well-formed multiple-choice raw question
(three incorrect answers) by a permutation shuffle always carries a
correct-answer label. -/
theorem transformQuestion_answer_isSome (sh : List String → List String)
    (apiQuestion : ApiQuestion) (index : Option Nat)
    (hperm : ∀ l, (sh l).Perm l)
    (hlen : apiQuestion.incorrect_answers.length = 3) :
    (transformQuestion sh apiQuestion index).answer.isSome := by
  have hperm' := hperm (decodeHtmlEntities apiQuestion.correct_answer ::
    apiQuestion.incorrect_answers.map decodeHtmlEntities)
  have hmem : decodeHtmlEntities apiQuestion.correct_answer ∈
      sh (decodeHtmlEntities apiQuestion.correct_answer ::
        apiQuestion.incorrect_answers.map decodeHtmlEntities) :=
    hperm'.mem_iff.mpr (List.mem_cons_self _ _)
  have hlen4 : (sh (decodeHtmlEntities apiQuestion.correct_answer ::
      apiQuestion.incorrect_answers.map decodeHtmlEntities)).length = 4 := by
    rw [hperm'.length_eq]
    simp [hlen]
  have hidx : (sh (decodeHtmlEntities apiQuestion.correct_answer ::
      apiQuestion.incorrect_answers.map decodeHtmlEntities)).findIdx
      (fun ans => ans = decodeHtmlEntities apiQuestion.correct_answer) < 4 := by
    rw [← hlen4]
    exact List.findIdx_lt_length_of_exists
      ⟨decodeHtmlEntities apiQuestion.correct_answer, hmem, by simp⟩
  have key : ∀ n : Nat, n < 4 →
      ((["A", "B", "C", "D"] : List String).get? n).isSome = true := by decide
  simpa [transformQuestion] using key _ hidx

/-! ## Claim theorems -/

/-- C6: `answer` fails with `NoActiveSession` whenever no active session
exists and with `InvalidIndex` whenever the position is outside
`[0, questionCount)`; `submitQuiz` fails with `NoActiveSession` whenever
no active session exists; in every such failure case the session state
is unchanged, and a successful submit clears the active session to
`NoSession` while retaining the `QuizResult` as the last result. -/
theorem quiz_ops_errors_and_submit_clears (s : QuizState) (i : Int)
    (a : String) (now : Nat) :
    (s.currentQuiz = none → answerOp s i a = (s, .error .NoActiveSession)) ∧
    (∀ qz, s.currentQuiz = some qz →
      (i < 0 ∨ (qz.questions.length : Int) ≤ i) →
      answerOp s i a = (s, .error .InvalidIndex)) ∧
    (s.currentQuiz = none → submitOp s now = (s, .error .NoActiveSession)) ∧
    (∀ qz, s.currentQuiz = some qz →
      ∃ r, submitOp s now =
        ({ s with currentQuiz := none, quizResults := some r }, .ok r)) := by
  refine ⟨?_, ?_, ?_, ?_⟩
  · intro h
    simp [answerOp, h]
  · intro qz hq hrange
    simp [answerOp, hq, hrange]
  · intro h
    simp [submitOp, h]
  · intro qz hq
    simp only [submitOp, hq]
    exact ⟨_, rfl⟩

/-- Witness for C6 at concrete inputs: a fresh session for the
`NoActiveSession` failures, an empty active quiz for `InvalidIndex` and
for a successful submit. -/
theorem quiz_ops_errors_and_submit_clears_witness :
    answerOp initState 0 "A" = (initState, .error .NoActiveSession) ∧
    submitOp initState 0 = (initState, .error .NoActiveSession) ∧
    answerOp ⟨some ⟨[], [], [], 0, 0⟩, none, []⟩ 0 "A" =
      (⟨some ⟨[], [], [], 0, 0⟩, none, []⟩, .error .InvalidIndex) ∧
    ∃ r, submitOp ⟨some ⟨[], [], [], 0, 0⟩, none, []⟩ 0 =
      (⟨none, some r, []⟩, .ok r) := by
  refine ⟨(quiz_ops_errors_and_submit_clears initState 0 "A" 0).1 rfl,
    (quiz_ops_errors_and_submit_clears initState 0 "A" 0).2.2.1 rfl,
    (quiz_ops_errors_and_submit_clears _ 0 "A" 0).2.1 _ rfl (by decide),
    (quiz_ops_errors_and_submit_clears _ 0 "A" 0).2.2.2 _ rfl⟩

/-- C7: `answer` is last-write-wins per position: for every active
session and every valid position, answering that position twice (with any
labels) leaves exactly the second label stored, each successful answer
sets the cursor to the answered position, and no other position's stored
answer changes. -/
theorem answer_last_write_wins (s : QuizState) (qz : Quiz) (p : Int)
    (l1 l2 : String) (hq : s.currentQuiz = some qz)
    (hp0 : 0 ≤ p) (hplt : p < (qz.questions.length : Int)) :
    ∃ qz1 qz2,
      (answerOp s p l1).1.currentQuiz = some qz1 ∧
      getAnswer qz1.answers p.toNat = some l1 ∧
      qz1.currentQuestionIndex = p.toNat ∧
      (answerOp (answerOp s p l1).1 p l2).1.currentQuiz = some qz2 ∧
      getAnswer qz2.answers p.toNat = some l2 ∧
      qz2.currentQuestionIndex = p.toNat ∧
      (∀ j : Nat, j ≠ p.toNat →
        getAnswer qz2.answers j = getAnswer qz.answers j) ∧
      qz2.questions = qz.questions := by
  have hcond : ¬ (p < 0 ∨ (qz.questions.length : Int) ≤ p) := by omega
  simp only [answerOp, hq, hcond, if_false]
  refine ⟨_, _, rfl, ?_, rfl, rfl, ?_, rfl, ?_, rfl⟩
  · simp [getAnswer_setAnswer]
  · simp [getAnswer_setAnswer]
  · intro j hj
    simp [getAnswer_setAnswer, hj]

/-- Witness for C7: a one-question quiz, position 0 answered "A" then
"B". -/
theorem answer_last_write_wins_witness :
    ∃ qz1 qz2,
      (answerOp ⟨some ⟨[⟨"q", "a", "b", "c", "d", some "A", "x", "y",
          "z"⟩], ["q"], [], 0, 0⟩, none, []⟩ 0 "A").1.currentQuiz = some qz1 ∧
      getAnswer qz1.answers (Int.toNat 0) = some "A" ∧
      qz1.currentQuestionIndex = (Int.toNat 0) ∧
      (answerOp (answerOp ⟨some ⟨[⟨"q", "a", "b", "c", "d", some "A", "x",
          "y", "z"⟩], ["q"], [], 0, 0⟩, none, []⟩ 0 "A").1 0
          "B").1.currentQuiz = some qz2 ∧
      getAnswer qz2.answers (Int.toNat 0) = some "B" ∧
      qz2.currentQuestionIndex = (Int.toNat 0) ∧
      (∀ j : Nat, j ≠ (Int.toNat 0) →
        getAnswer qz2.answers j = getAnswer
          (Quiz.mk [⟨"q", "a", "b", "c", "d", some "A", "x", "y", "z"⟩]
            ["q"] [] 0 0).answers j) ∧
      qz2.questions = (Quiz.mk [⟨"q", "a", "b", "c", "d", some "A", "x",
        "y", "z"⟩] ["q"] [] 0 0).questions :=
  answer_last_write_wins _ _ 0 "A" "B" rfl (by decide) (by decide)

/-- C9: `GET /api/quiz/start` clears any prior active session (and trims
the ledger) before the question provider is invoked, so every start that
fails with a provider or selection error leaves the session with no
active quiz — the previously active session is already gone. -/
theorem start_failure_leaves_no_session (s : QuizState) (amount : Int)
    (fetch1 : Except String (List ApiQuestion))
    (supp : Option (List ApiQuestion))
    (shOpt : Nat → List String → List String)
    (shSel : List TransformedQuestion → List TransformedQuestion)
    (now : Nat) (e : String)
    (hfail : (startQuizHandler s amount fetch1 supp shOpt shSel now).2 =
      .error e) :
    (startQuizHandler s amount fetch1 supp shOpt shSel now).1.currentQuiz =
      none := by
  unfold startQuizHandler
  cases fetch1 with
  | error e' => rfl
  | ok batch1 =>
    cases hsel : getQuestionsExcludingUsed
        (trimUsedQuestions s.usedQuestionIds) (clampAmount amount) batch1 supp
        shOpt shSel with
    | error e' => simp [hsel]
    | ok selected =>
      exfalso
      unfold startQuizHandler at hfail
      simp [hsel] at hfail

/-- Witness for C9: a network failure on a session that had an active
quiz. -/
theorem start_failure_leaves_no_session_witness :
    (startQuizHandler ⟨some ⟨[], [], [], 0, 0⟩, none, []⟩ 5
      (.error "Network error fetching questions") none (fun _ l => l)
      id 0).1.currentQuiz = none :=
  start_failure_leaves_no_session ⟨some ⟨[], [], [], 0, 0⟩, none, []⟩ 5
    (.error "Network error fetching questions") none (fun _ l => l) id 0
    "Network error fetching questions" rfl

/-- C4: the seen-question ledger is bounded: the handler merges the ids
of the served questions into the (already once-trimmed) ledger before
the trim check, and whenever a ledger exceeds the 100-entry high-water
mark the trim keeps exactly the 50 most recently appended entries, which
is below the high-water mark. -/
theorem ledger_bounded_after_trim (s : QuizState)
    (selected : List TransformedQuestion) (now : Nat) :
    (startQuizOk s selected now).usedQuestionIds =
      trimUsedQuestions (trimUsedQuestions s.usedQuestionIds ++
        selected.map (fun q => q.questionId)) ∧
    (∀ l : List String, 100 < l.length →
      trimUsedQuestions l = l.drop (l.length - 50) ∧
      (trimUsedQuestions l).length = 50 ∧
      (trimUsedQuestions l).length ≤ 100) := by
  constructor
  · rfl
  · intro l hl
    refine ⟨by simp [trimUsedQuestions, hl], ?_, ?_⟩ <;>
      simp [trimUsedQuestions, hl] <;> omega

/-- Witness for C4: a 101-entry ledger is trimmed to its most recent 50
entries. -/
theorem ledger_bounded_after_trim_witness :
    (startQuizOk initState [] 0).usedQuestionIds =
      trimUsedQuestions (trimUsedQuestions initState.usedQuestionIds ++
        ([] : List TransformedQuestion).map (fun q => q.questionId)) ∧
    trimUsedQuestions (List.replicate 101 "a") =
      (List.replicate 101 "a").drop ((List.replicate 101 "a").length - 50) ∧
    (trimUsedQuestions (List.replicate 101 "a")).length = 50 ∧
    (trimUsedQuestions (List.replicate 101 "a")).length ≤ 100 := by
  have h := ledger_bounded_after_trim initState [] 0
  have h2 := h.2 (List.replicate 101 "a") (by simp)
  exact ⟨h.1, h2.1, h2.2.1, h2.2.2⟩

/-- Half-up rounding of `100 * c / t` (what `Math.round` computes on the
session sizes the server produces) agrees with the integer formula the
embedding of `submitOp` uses. -/
theorem round_half_up_div (c t : Nat) (ht : 0 < t) :
    (200 * c + t) / (2 * t) = ⌊(100 * c : ℚ) / t + 1 / 2⌋₊ := by
  have ht' : (t : ℚ) ≠ 0 := by positivity
  have heq : (100 * c : ℚ) / t + 1 / 2 =
      ((200 * c + t : ℕ) : ℚ) / ((2 * t : ℕ) : ℚ) := by
    push_cast
    field_simp
    ring
  rw [heq, Nat.floor_div_nat]
  norm_cast

/-- C1: for every submitted quiz the returned result satisfies
`score = round(100 * correctCount / totalQuestions)` (0 when there are no
questions), `correctCount + incorrectCount = totalQuestions`, and
`correctCount` counts exactly the positions whose stored answer equals
the question's correct label, an absent answer never matching (the
hypothesis that every question carries a correct label holds for all
transformed questions, which have four populated options). -/
theorem submit_scoring_correct (s : QuizState) (qz : Quiz) (now : Nat)
    (hq : s.currentQuiz = some qz)
    (hall : ∀ q ∈ qz.questions, q.answer.isSome) :
    ∃ r, (submitOp s now).2 = .ok r ∧
      r.totalQuestions = qz.questions.length ∧
      r.correctCount + r.incorrectCount = r.totalQuestions ∧
      r.correctCount = qz.questions.enum.countP (fun p =>
        match p.2.answer with
        | some lbl => getAnswer qz.answers p.1 == some lbl
        | none => false) ∧
      r.score = if r.totalQuestions = 0 then 0
        else ⌊(100 * r.correctCount : ℚ) / r.totalQuestions + 1 / 2⌋₊ := by
  simp only [submitOp, hq]
  refine ⟨_, rfl, ?_, ?_, ?_, ?_⟩
  · simp
  · have hle : (qz.questions.enum.map
        (fun p => scoreEntry qz.answers p.1 p.2)).countP (fun r => r.isCorrect) ≤
        qz.questions.length := by
      calc (qz.questions.enum.map
          (fun p => scoreEntry qz.answers p.1 p.2)).countP (fun r => r.isCorrect)
          ≤ (qz.questions.enum.map
            (fun p => scoreEntry qz.answers p.1 p.2)).length :=
            List.countP_le_length _
        _ = qz.questions.length := by simp
    simp only []
    omega
  · rw [List.countP_map]
    apply List.countP_congr
    intro p hp
    have hmem : p.2 ∈ qz.questions :=
      List.getElem?_mem (List.mem_enum_iff_getElem?.mp hp)
    obtain ⟨lbl, hlbl⟩ := Option.isSome_iff_exists.mp (hall p.2 hmem)
    simp [scoreEntry, Function.comp, hlbl]
  · have hlen : ((qz.questions.enum.map
        (fun p => scoreEntry qz.answers p.1 p.2)).length) = qz.questions.length := by
      simp
    by_cases h0 : qz.questions.length = 0
    · simp [h0]
    · have hpos : 0 < qz.questions.length := Nat.pos_of_ne_zero h0
      simp only [hpos, if_true, h0, if_false]
      exact round_half_up_div _ _ hpos

/-- Witness for C1: a two-question quiz with one correct stored answer,
one absent answer; the result scores 50. -/
theorem submit_scoring_correct_witness :
    ∃ r, (submitOp ⟨some ⟨[⟨"q1", "a", "b", "c", "d", some "A", "x", "y",
        "z"⟩, ⟨"q2", "a", "b", "c", "d", some "B", "x", "y", "z"⟩],
        ["q1", "q2"], [(0, "A")], 0, 0⟩, none, []⟩ 1000).2 = .ok r ∧
      r.totalQuestions = 2 ∧
      r.correctCount + r.incorrectCount = r.totalQuestions ∧
      r.correctCount = ([⟨"q1", "a", "b", "c", "d", some "A", "x", "y",
        "z"⟩, ⟨"q2", "a", "b", "c", "d", some "B", "x", "y", "z"⟩] :
          List SessQuestion).enum.countP (fun p =>
        match p.2.answer with
        | some lbl => getAnswer [(0, "A")] p.1 == some lbl
        | none => false) ∧
      r.score = if r.totalQuestions = 0 then 0
        else ⌊(100 * r.correctCount : ℚ) / r.totalQuestions + 1 / 2⌋₊ := by
  have h := submit_scoring_correct ⟨some ⟨[⟨"q1", "a", "b", "c", "d",
    some "A", "x", "y", "z"⟩, ⟨"q2", "a", "b", "c", "d", some "B", "x", "y",
    "z"⟩], ["q1", "q2"], [(0, "A")], 0, 0⟩, none, []⟩ _ 1000 rfl
    (by intro q hq; fin_cases hq <;> rfl)
  simpa using h

theorem answerOp_fst_quizResults (s : QuizState) (i : Int) (a : String) :
    (answerOp s i a).1.quizResults = s.quizResults := by
  cases h : s.currentQuiz with
  | none => simp [answerOp, h]
  | some qz =>
    by_cases hc : i < 0 ∨ (qz.questions.length : Int) ≤ i <;>
      simp [answerOp, h, hc]

theorem startQuizOk_quizResults (s : QuizState)
    (sel : List TransformedQuestion) (now : Nat) :
    (startQuizOk s sel now).quizResults = s.quizResults := rfl

/-- The stored last result is `some` exactly when a successful submit
happened since the last reset: the inductive invariant behind C5. -/
theorem submittedSinceAux_reset_eq (es : List Event) (s : QuizState)
    (flag : Bool) (hflag : flag = s.quizResults.isSome) :
    submittedSinceAux isResetEvent s flag es =
      ((es.foldl step s).quizResults).isSome := by
  induction es generalizing s flag with
  | nil => simpa using hflag
  | cons e es ih =>
    cases e with
    | startOk sel now =>
      simp only [submittedSinceAux, isResetEvent, List.foldl_cons]
      exact ih _ _ (by simpa [step, startQuizOk_quizResults] using hflag)
    | startFail =>
      simp only [submittedSinceAux, isResetEvent, List.foldl_cons]
      exact ih _ _ (by simpa [step, startQuizFail] using hflag)
    | answerEv i a =>
      simp only [submittedSinceAux, isResetEvent, List.foldl_cons]
      exact ih _ _ (by simpa [step, answerOp_fst_quizResults] using hflag)
    | submitEv now =>
      simp only [submittedSinceAux, isResetEvent, List.foldl_cons]
      cases hcq : s.currentQuiz with
      | none =>
        have hstep : step s (.submitEv now) = s := by simp [step, submitOp, hcq]
        rw [hstep]
        exact ih _ _ (by simp [hcq, hflag])
      | some qz =>
        have hstep : (step s (.submitEv now)).quizResults.isSome = true := by
          simp [step, submitOp, hcq]
        exact ih _ _ (by simp [hcq, hstep])
    | resetEv =>
      simp only [submittedSinceAux, isResetEvent, List.foldl_cons]
      exact ih _ _ (by simp [step, resetOp])

/-- C5 counterexample: after start-submit-start, the stored result from
the submit is still readable even though no quiz was submitted since the
last start — `GET /api/quiz/start` clears `currentQuiz` but never
`quizResults`, so "fails iff no submit since the last reset *or start*"
is false as stated. -/
theorem last_result_survives_start_counterexample :
    exceptIsOk (readResults (runEvents [Event.startOk [] 0,
      Event.submitEv 0, Event.startOk [] 0])).2 = true ∧
    submittedSinceLastResetOrStart [Event.startOk [] 0, Event.submitEv 0,
      Event.startOk [] 0] = false := by
  constructor <;> rfl

/-- C5 as amended: `getLastResult` fails with `NoResult` iff no quiz has
been submitted since the last *reset* (a new start does not clear the
last result); when a result exists the read returns the stored
`QuizResult` unchanged and does not modify the session state. -/
theorem last_result_iff_submit_since_reset (es : List Event) :
    (exceptIsOk (readResults (runEvents es)).2 = submittedSinceLastReset es) ∧
    (readResults (runEvents es)).1 = runEvents es ∧
    (∀ r, (runEvents es).quizResults = some r →
      (readResults (runEvents es)).2 = .ok r) := by
  refine ⟨?_, ?_, ?_⟩
  · rw [submittedSinceLastReset,
      submittedSinceAux_reset_eq es initState false rfl]
    cases h : (runEvents es).quizResults with
    | none =>
      simp only [runEvents] at h
      simp [readResults, exceptIsOk, runEvents, h]
    | some r =>
      simp only [runEvents] at h
      simp [readResults, exceptIsOk, runEvents, h]
  · cases h : (runEvents es).quizResults <;> simp [readResults, h]
  · intro r h
    simp [readResults, h]

/-- Witness for C5 (amended): a start followed by a submit leaves a
zero-question result readable. -/
theorem last_result_iff_submit_since_reset_witness :
    (readResults (runEvents [Event.startOk [] 0, Event.submitEv 0])).2 =
      .ok ⟨0, 0, 0, 0, 0, [], 0⟩ :=
  (last_result_iff_submit_since_reset [Event.startOk [] 0,
    Event.submitEv 0]).2.2 ⟨0, 0, 0, 0, 0, [], 0⟩ rfl

theorem take_min_length (l : List TransformedQuestion) (n : Nat) :
    l.take (min n l.length) = l.take n := by
  rcases le_or_lt n l.length with h | h
  · rw [min_eq_left h]
  · rw [min_eq_right h.le, List.take_length, List.take_of_length_le h.le]

/-- Shared unfolding of `getQuestionsExcludingUsed` into the selection
policy on its intermediate pools. -/
theorem selection_eq_policy (usedQuestionIds : List String)
    (count : Nat) (batch1 : List ApiQuestion)
    (supp : Option (List ApiQuestion))
    (shOpt : Nat → List String → List String)
    (shSel : List TransformedQuestion → List TransformedQuestion)
    (hne : batch1.length ≠ 0) :
    getQuestionsExcludingUsed usedQuestionIds count batch1 supp shOpt shSel =
      .ok (selectPolicySpec count
        (decide ((selectionBatch usedQuestionIds count batch1 supp).length <
          fetchAmount usedQuestionIds.length count))
        (selectionTransformed usedQuestionIds count batch1 supp shOpt)
        (selectionAvailable usedQuestionIds count batch1 supp shOpt)
        shSel) := by
  unfold getQuestionsExcludingUsed selectPolicySpec
  simp only [hne, if_false]
  rw [← selectionBatch, ← selectionTransformed, ← selectionAvailable]
  set batchAll := selectionBatch usedQuestionIds count batch1 supp
  set transformed := selectionTransformed usedQuestionIds count batch1 supp shOpt
  set available := selectionAvailable usedQuestionIds count batch1 supp shOpt
  by_cases h1 : available.length < count
  · have h1' : ¬ count ≤ available.length := by omega
    simp only [h1, if_true, h1', if_false]
    by_cases h2 : batchAll.length < fetchAmount usedQuestionIds.length count
    · simp [h2]
    · simp only [h2, if_false, decide_eq_true_eq, decide_False]
      by_cases h3 : 0 < available.length
      · have h3' : available.isEmpty = false := by
          rw [← Bool.not_eq_true, List.isEmpty_iff_length_eq_zero]
          omega
        simp [h3, h3']
      · have h3' : available.isEmpty = true := by
          rw [List.isEmpty_iff_length_eq_zero]
          omega
        simp [h3, h3', take_min_length]
  · have h1' : count ≤ available.length := by omega
    simp [h1, h1']

/-- C2 counterexample: with one ledger entry, requested count 1 and a
two-question batch, the raw batch (2) is short of the fetch size (11)
and both questions survive filtering, yet the engine returns a single
question rather than "all available filtered questions as-is" — the
scarcity branch is only reached when fewer than `requestedCount`
questions survive filtering. -/
theorem selection_precedence_counterexample :
    decide ((selectionBatch ["zz"] 1 [⟨"q1", "ca", ["i1", "i2", "i3"], "c",
        "d", "m"⟩, ⟨"q2", "ca", ["i1", "i2", "i3"], "c", "d", "m"⟩]
        none).length < fetchAmount (["zz"] : List String).length 1) = true ∧
    (selectionAvailable ["zz"] 1 [⟨"q1", "ca", ["i1", "i2", "i3"], "c", "d",
        "m"⟩, ⟨"q2", "ca", ["i1", "i2", "i3"], "c", "d", "m"⟩] none
        (fun _ l => l)).length = 2 ∧
    (getQuestionsExcludingUsed ["zz"] 1 [⟨"q1", "ca", ["i1", "i2", "i3"],
        "c", "d", "m"⟩, ⟨"q2", "ca", ["i1", "i2", "i3"], "c", "d", "m"⟩]
        none (fun _ l => l) id).toOption.map List.length = some 1 := by
  refine ⟨by decide, by decide, by decide⟩

/-- C2 as amended: `getQuestionsExcludingUsed` refines the selection
policy `selectPolicySpec`: when at least `requestedCount` questions
survive filtering it returns exactly `requestedCount` of them (shuffled
prefix); otherwise, if the raw batch was short of the fetch size it
returns all available filtered questions as-is, else if at least one
survives it returns all of them, else it falls back to the unfiltered
transformed batch and returns up to `requestedCount`, never an error. -/
theorem selection_policy_refines (usedQuestionIds : List String)
    (count : Nat) (batch1 : List ApiQuestion)
    (supp : Option (List ApiQuestion))
    (shOpt : Nat → List String → List String)
    (shSel : List TransformedQuestion → List TransformedQuestion)
    (hne : batch1.length ≠ 0) :
    getQuestionsExcludingUsed usedQuestionIds count batch1 supp shOpt shSel =
      .ok (selectPolicySpec count
        (decide ((selectionBatch usedQuestionIds count batch1 supp).length <
          fetchAmount usedQuestionIds.length count))
        (selectionTransformed usedQuestionIds count batch1 supp shOpt)
        (selectionAvailable usedQuestionIds count batch1 supp shOpt)
        shSel) :=
  selection_eq_policy usedQuestionIds count batch1 supp shOpt shSel hne

/-- Witness for C2 (amended) on a fresh ledger: a two-question batch and
requested count 2 return both questions. -/
theorem selection_policy_refines_witness :
    getQuestionsExcludingUsed [] 2 [⟨"q1", "ca", ["i1", "i2", "i3"], "c",
        "d", "m"⟩, ⟨"q2", "ca", ["i1", "i2", "i3"], "c", "d", "m"⟩] none
        (fun _ l => l) id =
      .ok (selectPolicySpec 2
        (decide ((selectionBatch [] 2 [⟨"q1", "ca", ["i1", "i2", "i3"],
          "c", "d", "m"⟩, ⟨"q2", "ca", ["i1", "i2", "i3"], "c", "d",
          "m"⟩] none).length < fetchAmount ([] : List String).length 2))
        (selectionTransformed [] 2 [⟨"q1", "ca", ["i1", "i2", "i3"], "c",
          "d", "m"⟩, ⟨"q2", "ca", ["i1", "i2", "i3"], "c", "d", "m"⟩]
          none (fun _ l => l))
        (selectionAvailable [] 2 [⟨"q1", "ca", ["i1", "i2", "i3"], "c",
          "d", "m"⟩, ⟨"q2", "ca", ["i1", "i2", "i3"], "c", "d", "m"⟩]
          none (fun _ l => l))
        id) :=
  selection_policy_refines [] 2 [⟨"q1", "ca", ["i1", "i2", "i3"], "c", "d",
    "m"⟩, ⟨"q2", "ca", ["i1", "i2", "i3"], "c", "d", "m"⟩] none
    (fun _ l => l) id (by decide)

/-- C3 counterexample: two distinct prompt texts ("A B" and "a b")
normalize to the same 50-character identifier "ab"; nothing deduplicates
within a batch, so the returned list carries the same identifier
twice — "never returns duplicate identifiers within one batch" is false
as stated. -/
theorem selection_duplicate_ids_counterexample :
    (getQuestionsExcludingUsed [] 2 [⟨"A B", "ca", ["i1", "i2", "i3"], "c",
        "d", "m"⟩, ⟨"a b", "ca", ["i1", "i2", "i3"], "c", "d", "m"⟩] none
        (fun _ l => l) id).toOption.map
        (fun l => l.map (fun q => q.questionId)) = some ["ab", "ab"] ∧
    (["ab", "ab"] : List String).Nodup = False := by
  refine ⟨by decide, by simp⟩

/-- C3 as amended: the returned list contains no identifier from
`seenIds` except when the fallback-on-exhaustion path was taken, and it
contains no two questions with the same identifier *provided* the
transformed batch itself has pairwise-distinct identifiers (distinct
prompts may collide on the lossy 50-character identifier, and such a
collision can be returned twice). -/
theorem selection_ids_amended (usedQuestionIds : List String) (count : Nat)
    (batch1 : List ApiQuestion) (supp : Option (List ApiQuestion))
    (shOpt : Nat → List String → List String)
    (shSel : List TransformedQuestion → List TransformedQuestion)
    (res : List TransformedQuestion)
    (hperm : ∀ l, (shSel l).Perm l)
    (hok : getQuestionsExcludingUsed usedQuestionIds count batch1 supp shOpt
      shSel = .ok res) :
    (fallbackTaken usedQuestionIds count batch1 supp shOpt = false →
      ∀ q ∈ res, usedQuestionIds.contains q.questionId = false) ∧
    (((selectionTransformed usedQuestionIds count batch1 supp shOpt).map
        (fun q => q.questionId)).Nodup →
      (res.map (fun q => q.questionId)).Nodup) := by
  have hne : batch1.length ≠ 0 := by
    intro h
    rw [getQuestionsExcludingUsed, if_pos h] at hok
    exact Except.noConfusion hok
  rw [selection_eq_policy usedQuestionIds count batch1 supp shOpt shSel hne]
    at hok
  have hres : res = selectPolicySpec count
      (decide ((selectionBatch usedQuestionIds count batch1 supp).length <
        fetchAmount usedQuestionIds.length count))
      (selectionTransformed usedQuestionIds count batch1 supp shOpt)
      (selectionAvailable usedQuestionIds count batch1 supp shOpt) shSel :=
    (Except.ok.injEq _ _).mp hok.symm
  set batchAll := selectionBatch usedQuestionIds count batch1 supp with hbatch
  set transformed := selectionTransformed usedQuestionIds count batch1 supp
    shOpt with htr
  set available := selectionAvailable usedQuestionIds count batch1 supp shOpt
    with hav
  have hmem_av : ∀ q ∈ available,
      usedQuestionIds.contains q.questionId = false := by
    intro q hq
    have := List.of_mem_filter hq
    simpa using this
  have hsub_av : available.Sublist transformed := List.filter_sublist _
  have hnodup_av : ((transformed.map (fun q => q.questionId)).Nodup →
      (available.map (fun q => q.questionId)).Nodup) := fun hn =>
    hn.sublist (hsub_av.map _)
  constructor
  · intro hfb q hq
    rw [hres] at hq
    unfold selectPolicySpec at hq
    by_cases h1 : count ≤ available.length
    · rw [if_pos h1] at hq
      exact hmem_av q (((hperm available).mem_iff).mp (List.mem_of_mem_take hq))
    · rw [if_neg h1] at hq
      by_cases h2 : (decide (batchAll.length <
          fetchAmount usedQuestionIds.length count)) = true
      · rw [if_pos h2] at hq
        exact hmem_av q hq
      · rw [if_neg h2] at hq
        by_cases h3 : available.isEmpty = true
        · exfalso
          have hlen : available.length = 0 :=
            List.isEmpty_iff_length_eq_zero.mp h3
          have : fallbackTaken usedQuestionIds count batch1 supp shOpt
              = true := by
            unfold fallbackTaken
            rw [← hbatch, ← hav]
            simp only [Bool.and_eq_true, decide_eq_true_eq]
            refine ⟨⟨by omega, ?_⟩, by omega⟩
            simpa using h2
          rw [this] at hfb
          exact Bool.noConfusion hfb
        · rw [if_neg h3] at hq
          exact hmem_av q hq
  · intro hn
    rw [hres]
    unfold selectPolicySpec
    by_cases h1 : count ≤ available.length
    · rw [if_pos h1]
      have h4 : ((shSel available).map (fun q => q.questionId)).Nodup :=
        (((hperm available).map _).nodup_iff).mpr (hnodup_av hn)
      rw [List.map_take]
      exact h4.sublist (List.take_sublist _ _)
    · rw [if_neg h1]
      by_cases h2 : (decide (batchAll.length <
          fetchAmount usedQuestionIds.length count)) = true
      · rw [if_pos h2]
        exact hnodup_av hn
      · rw [if_neg h2]
        by_cases h3 : available.isEmpty = true
        · rw [if_pos h3]
          rw [List.map_take]
          exact hn.sublist (List.take_sublist _ _)
        · rw [if_neg h3]
          exact hnodup_av hn

/-- Witness for C3 (amended): a single fresh question is returned with
its identifier neither seen nor duplicated. -/
theorem selection_ids_amended_witness :
    (fallbackTaken [] 1 [⟨"q1", "ca", ["i1", "i2", "i3"], "c", "d", "m"⟩]
        none (fun _ l => l) = false →
      ∀ q ∈ [transformQuestion (fun l => l) ⟨"q1", "ca", ["i1", "i2", "i3"],
        "c", "d", "m"⟩ (some 0)],
        ([] : List String).contains q.questionId = false) ∧
    (((selectionTransformed [] 1 [⟨"q1", "ca", ["i1", "i2", "i3"], "c", "d",
        "m"⟩] none (fun _ l => l)).map (fun q => q.questionId)).Nodup →
      (([transformQuestion (fun l => l) ⟨"q1", "ca", ["i1", "i2", "i3"],
        "c", "d", "m"⟩ (some 0)]).map (fun q => q.questionId)).Nodup) :=
  selection_ids_amended [] 1 [⟨"q1", "ca", ["i1", "i2", "i3"], "c", "d",
    "m"⟩] none (fun _ l => l) id _ (fun l => List.Perm.refl l) rfl

set_option maxRecDepth 4000 in
/-- C10: the seen-question ledger is a list, not a set.  With a
20-entry ledger and a 21-question batch consisting entirely of one
already-seen question, the fallback path serves the seen question
again and the handler appends its identifier unconditionally, leaving
the ledger with duplicate entries; and the 100-entry trim threshold
fires on entry count alone — a 101-entry ledger with a single distinct
identifier is still trimmed to its last 50 entries. -/
theorem ledger_holds_duplicate_entries :
    ¬ ((startQuizHandler ⟨none, none, "dup" :: List.replicate 19 "x"⟩ 1
      (.ok (List.replicate 21 ⟨"dup", "ca", ["i1", "i2", "i3"], "c", "d",
        "m"⟩)) none (fun _ l => l) id 0).1.usedQuestionIds.Nodup) ∧
    (startQuizHandler ⟨none, none, "dup" :: List.replicate 19 "x"⟩ 1
      (.ok (List.replicate 21 ⟨"dup", "ca", ["i1", "i2", "i3"], "c", "d",
        "m"⟩)) none (fun _ l => l) id 0).2.toOption.map
        (fun l => l.map (fun q => q.questionId)) = some ["dup"] ∧
    ("dup" :: List.replicate 19 "x").contains "dup" = true ∧
    trimUsedQuestions (List.replicate 101 "a") = List.replicate 50 "a" ∧
    (List.replicate 101 "a").dedup.length = 1 := by
  refine ⟨by decide, by decide, by decide, by decide, by decide⟩

theorem cmpPlayers_le_iff (a b : Player) :
    cmpPlayers a b ≤ 0 ↔ bestKey b ≤ bestKey a := by
  unfold cmpPlayers bestKey
  rcases a with ⟨ua, sa, ta⟩
  rcases b with ⟨ub, sb, tb⟩
  cases sa <;> cases sb <;> simp

theorem mem_insertByCmp (cmp : Player → Player → Int) (a x : Player)
    (l : List Player) : x ∈ insertByCmp cmp a l ↔ x = a ∨ x ∈ l := by
  induction l with
  | nil => simp [insertByCmp]
  | cons b bs ih =>
    unfold insertByCmp
    by_cases h : cmp b a ≤ 0
    · simp only [h, if_true, List.mem_cons, ih]
      tauto
    · simp only [h, if_false, List.mem_cons]

theorem insertByCmp_perm (cmp : Player → Player → Int) (a : Player)
    (l : List Player) : (insertByCmp cmp a l).Perm (a :: l) := by
  induction l with
  | nil => simp [insertByCmp]
  | cons b bs ih =>
    unfold insertByCmp
    by_cases h : cmp b a ≤ 0
    · simp only [h, if_true]
      exact (ih.cons b).trans (List.Perm.swap a b bs)
    · simp [h]

theorem insertByCmp_pairwise (a : Player) (l : List Player)
    (hl : l.Pairwise (fun x y => cmpPlayers x y ≤ 0)) :
    (insertByCmp cmpPlayers a l).Pairwise (fun x y => cmpPlayers x y ≤ 0) := by
  induction l with
  | nil => simp [insertByCmp]
  | cons b bs ih =>
    unfold insertByCmp
    by_cases h : cmpPlayers b a ≤ 0
    · simp only [h, if_true]
      rw [List.pairwise_cons] at hl ⊢
      refine ⟨?_, ih hl.2⟩
      intro x hx
      rcases (mem_insertByCmp cmpPlayers a x bs).mp hx with hxa | hxb
      · exact hxa ▸ h
      · exact hl.1 x hxb
    · simp only [h, if_false]
      rw [List.pairwise_cons] at hl ⊢
      have hab : cmpPlayers a b ≤ 0 := by
        rw [cmpPlayers_le_iff]
        rw [cmpPlayers_le_iff] at h
        exact le_of_not_le h
      refine ⟨?_, List.pairwise_cons.mpr hl⟩
      intro x hx
      rcases List.mem_cons.mp hx with hxb | hxbs
      · exact hxb ▸ hab
      · have hbx : cmpPlayers b x ≤ 0 := hl.1 x hxbs
        rw [cmpPlayers_le_iff] at *
        exact le_trans hbx hab

/-- Stability of the insertion step: on a sorted accumulator, inserting
`a` does not change the relative order of any best-score class; the
result filters like `l ++ [a]`. -/
theorem insertByCmp_filter (a : Player) (l : List Player) (v : Int)
    (hl : l.Pairwise (fun x y => cmpPlayers x y ≤ 0)) :
    (insertByCmp cmpPlayers a l).filter (fun p => p.bestScore = some v) =
      (l ++ [a]).filter (fun p => p.bestScore = some v) := by
  induction l with
  | nil => simp [insertByCmp]
  | cons b bs ih =>
    rw [List.pairwise_cons] at hl
    unfold insertByCmp
    by_cases h : cmpPlayers b a ≤ 0
    · simp only [h, if_true]
      rw [List.cons_append, List.filter_cons, List.filter_cons]
      rw [ih hl.2]
    · simp only [h, if_false]
      by_cases hav : a.bestScore = some v
      · have hblt : ¬ bestKey a ≤ bestKey b := by
          rw [cmpPlayers_le_iff] at h
          exact h
        have hbv : ∀ x ∈ b :: bs, ¬ x.bestScore = some v := by
          intro x hx hxv
          have hxb : bestKey x ≤ bestKey b := by
            rcases List.mem_cons.mp hx with hxb | hxbs
            · exact hxb ▸ le_refl _
            · rw [← cmpPlayers_le_iff]
              exact hl.1 x hxbs
          have hkey : bestKey x = (v : WithBot Int) := by
            unfold bestKey
            rw [hxv]
          have hakey : bestKey a = (v : WithBot Int) := by
            unfold bestKey
            rw [hav]
          rw [hkey] at hxb
          rw [← hakey] at hxb
          exact hblt (le_trans hxb (le_refl _))
        have hfilter_nil : (b :: bs).filter
            (fun p => p.bestScore = some v) = [] := by
          rw [List.filter_eq_nil_iff]
          intro x hx
          simpa using hbv x hx
        rw [List.filter_cons_of_pos (by simpa using hav)]
        rw [List.filter_append, hfilter_nil]
        rw [List.filter_cons_of_pos (by simpa using hav),
          List.filter_nil]
        rfl
      · rw [List.filter_cons_of_neg (by simpa using hav)]
        rw [List.filter_append]
        have : ([a]).filter (fun p => p.bestScore = some v) = [] := by
          simp [List.filter, hav]
        rw [this, List.append_nil]

theorem foldl_insert_perm (l acc : List Player) :
    (l.foldl (fun acc a => insertByCmp cmpPlayers a acc) acc).Perm
      (acc ++ l) := by
  induction l generalizing acc with
  | nil => simp
  | cons a as ih =>
    simp only [List.foldl_cons]
    refine (ih (insertByCmp cmpPlayers a acc)).trans ?_
    have h1 : (insertByCmp cmpPlayers a acc).Perm (a :: acc) :=
      insertByCmp_perm cmpPlayers a acc
    refine (h1.append_right as).trans ?_
    rw [List.cons_append]
    exact List.perm_middle.symm

theorem foldl_insert_pairwise (l acc : List Player)
    (hacc : acc.Pairwise (fun x y => cmpPlayers x y ≤ 0)) :
    (l.foldl (fun acc a => insertByCmp cmpPlayers a acc) acc).Pairwise
      (fun x y => cmpPlayers x y ≤ 0) := by
  induction l generalizing acc with
  | nil => simpa
  | cons a as ih =>
    simp only [List.foldl_cons]
    exact ih _ (insertByCmp_pairwise a acc hacc)

theorem foldl_insert_filter (l acc : List Player) (v : Int)
    (hacc : acc.Pairwise (fun x y => cmpPlayers x y ≤ 0)) :
    (l.foldl (fun acc a => insertByCmp cmpPlayers a acc) acc).filter
        (fun p => p.bestScore = some v) =
      (acc ++ l).filter (fun p => p.bestScore = some v) := by
  induction l generalizing acc with
  | nil => simp
  | cons a as ih =>
    simp only [List.foldl_cons]
    rw [ih _ (insertByCmp_pairwise a acc hacc)]
    rw [List.filter_append, List.filter_append,
      insertByCmp_filter a acc v hacc, List.filter_append]
    by_cases hv : a.bestScore = some v <;> simp [List.filter_cons, hv]

theorem findIdx?_get?_aux (p : Player → Bool) (l : List Player) (s i : Nat)
    (h : l.findIdx? p s = some i) :
    s ≤ i ∧ ∃ x, l.get? (i - s) = some x ∧ p x = true := by
  induction l generalizing s with
  | nil => simp [List.findIdx?] at h
  | cons a as ih =>
    rw [List.findIdx?_cons] at h
    by_cases hp : p a
    · simp only [hp, if_true, Option.some.injEq] at h
      subst h
      exact ⟨le_refl _, a, by simp, hp⟩
    · simp only [hp, Bool.false_eq_true, if_false] at h
      obtain ⟨hs, x, hx, hpx⟩ := ih (s + 1) h
      refine ⟨by omega, x, ?_, hpx⟩
      have hi : i - s = (i - (s + 1)) + 1 := by omega
      rw [hi]
      simpa using hx

theorem findIdx?_get? (p : Player → Bool) (l : List Player) (i : Nat)
    (h : l.findIdx? p = some i) :
    ∃ x, l.get? i = some x ∧ p x = true := by
  have := findIdx?_get?_aux p l 0 i h
  simpa using this.2

/-- C8: the leaderboard excludes every user with zero attempts before
ranking, returns the top 10 of the full ranked list ordered by best
score descending with ties kept in stable iteration order (the ranked
list is a permutation of the filtered players whose equal-score classes
appear in their original order), and the current user's rank is their
1-based position in the full non-truncated ranked list, or `null` when
they have no attempts (usernames being unique) or are not found. -/
theorem leaderboard_top10_and_rank (users : List UserRec) (cu : UserRec)
    (hmem : cu ∈ users)
    (hnodup : (users.map (fun u => u.username)).Nodup) :
    (∀ p ∈ leaderboardTop10 users, 0 < p.totalAttempts) ∧
    (leaderboardTop10 users).length ≤ 10 ∧
    leaderboardTop10 users = (leaderboardPlayers users).take 10 ∧
    (leaderboardPlayers users).Pairwise
      (fun a b => bestKey b ≤ bestKey a) ∧
    (leaderboardPlayers users).Perm (users.filterMap toPlayer) ∧
    (∀ v : Int, (leaderboardPlayers users).filter
        (fun p => p.bestScore = some v) =
      (users.filterMap toPlayer).filter (fun p => p.bestScore = some v)) ∧
    (∀ r, currentUserRank users cu = some r → 1 ≤ r ∧
      ∃ p, (leaderboardPlayers users).get? (r - 1) = some p ∧
        p.username = cu.username) ∧
    (currentUserRank users cu = none ↔ cu.quizAttempts = []) := by
  have hperm : (leaderboardPlayers users).Perm (users.filterMap toPlayer) := by
    unfold leaderboardPlayers sortByCmp
    simpa using foldl_insert_perm (users.filterMap toPlayer) []
  have hattempts : ∀ p ∈ leaderboardPlayers users,
      ∃ u ∈ users, toPlayer u = some p ∧ 0 < p.totalAttempts ∧
        p.username = u.username ∧ u.quizAttempts ≠ [] := by
    intro p hp
    obtain ⟨u, hu, htp⟩ := List.mem_filterMap.mp (hperm.mem_iff.mp hp)
    refine ⟨u, hu, htp, ?_⟩
    unfold toPlayer at htp
    by_cases hz : u.quizAttempts.length = 0
    · rw [if_pos hz] at htp
      exact Option.noConfusion htp
    · rw [if_neg hz] at htp
      obtain rfl := (Option.some.injEq _ _).mp htp.symm
      refine ⟨by simpa using Nat.pos_of_ne_zero hz, rfl, ?_⟩
      intro hnil
      exact hz (by rw [hnil]; rfl)
  refine ⟨?_, ?_, rfl, ?_, hperm, ?_, ?_, ?_⟩
  · intro p hp
    have hp' : p ∈ leaderboardPlayers users :=
      List.mem_of_mem_take hp
    obtain ⟨u, _, _, hpos, _, _⟩ := hattempts p hp'
    exact hpos
  · exact List.length_take_le 10 _
  · have hpw : (leaderboardPlayers users).Pairwise
        (fun a b => cmpPlayers a b ≤ 0) := by
      unfold leaderboardPlayers sortByCmp
      exact foldl_insert_pairwise (users.filterMap toPlayer) [] (by simp)
    exact hpw.imp (fun h => (cmpPlayers_le_iff _ _).mp h)
  · intro v
    unfold leaderboardPlayers sortByCmp
    simpa using foldl_insert_filter (users.filterMap toPlayer) [] v (by simp)
  · intro r hr
    unfold currentUserRank at hr
    cases hidx : (leaderboardPlayers users).findIdx?
        (fun p => p.username = cu.username) with
    | none => rw [hidx] at hr; exact Option.noConfusion hr
    | some i =>
      rw [hidx] at hr
      obtain rfl := (Option.some.injEq _ _).mp hr
      obtain ⟨p, hget, hpred⟩ := findIdx?_get? _ _ i hidx
      refine ⟨by omega, p, by simpa using hget, by simpa using hpred⟩
  · constructor
    · intro h
      by_contra hne
      have htp : toPlayer cu = some ⟨cu.username, getBestScore cu,
          cu.quizAttempts.length⟩ := by
        unfold toPlayer
        rw [if_neg (by simpa using hne)]
      have hpc : (⟨cu.username, getBestScore cu, cu.quizAttempts.length⟩ :
          Player) ∈ leaderboardPlayers users :=
        hperm.mem_iff.mpr (List.mem_filterMap.mpr ⟨cu, hmem, htp⟩)
      unfold currentUserRank at h
      cases hidx : (leaderboardPlayers users).findIdx?
          (fun p => p.username = cu.username) with
      | some i => rw [hidx] at h; exact Option.noConfusion h
      | none =>
        have := List.findIdx?_eq_none_iff.mp hidx _ hpc
        simp at this
    · intro hempty
      have hfind : (leaderboardPlayers users).findIdx?
          (fun p => p.username = cu.username) = none := by
        rw [List.findIdx?_eq_none_iff]
        intro p hp
        obtain ⟨u, hu, _, _, hpu, hune⟩ := hattempts p hp
        simp only [decide_eq_false_iff_not]
        intro heq
        have : u = cu :=
          List.inj_on_of_nodup_map hnodup hu hmem (by rw [← hpu, heq])
        exact hune (this ▸ hempty)
      unfold currentUserRank
      rw [hfind]

/-- Witness for C8: two users with attempts (scores 90 and 70); the
current user "alice" ranks first. -/
theorem leaderboard_top10_and_rank_witness :
    (∀ p ∈ leaderboardTop10 [⟨"alice", [90]⟩, ⟨"bob", [70]⟩],
      0 < p.totalAttempts) ∧
    (leaderboardTop10 [⟨"alice", [90]⟩, ⟨"bob", [70]⟩]).length ≤ 10 ∧
    leaderboardTop10 [⟨"alice", [90]⟩, ⟨"bob", [70]⟩] =
      (leaderboardPlayers [⟨"alice", [90]⟩, ⟨"bob", [70]⟩]).take 10 ∧
    (leaderboardPlayers [⟨"alice", [90]⟩, ⟨"bob", [70]⟩]).Pairwise
      (fun a b => bestKey b ≤ bestKey a) ∧
    (leaderboardPlayers [⟨"alice", [90]⟩, ⟨"bob", [70]⟩]).Perm
      (([⟨"alice", [90]⟩, ⟨"bob", [70]⟩] :
        List UserRec).filterMap toPlayer) ∧
    (∀ v : Int, (leaderboardPlayers [⟨"alice", [90]⟩,
        ⟨"bob", [70]⟩]).filter (fun p => p.bestScore = some v) =
      (([⟨"alice", [90]⟩, ⟨"bob", [70]⟩] :
        List UserRec).filterMap toPlayer).filter
        (fun p => p.bestScore = some v)) ∧
    (∀ r, currentUserRank [⟨"alice", [90]⟩, ⟨"bob", [70]⟩]
        ⟨"alice", [90]⟩ = some r → 1 ≤ r ∧
      ∃ p, (leaderboardPlayers [⟨"alice", [90]⟩,
          ⟨"bob", [70]⟩]).get? (r - 1) = some p ∧
        p.username = (⟨"alice", [90]⟩ : UserRec).username) ∧
    (currentUserRank [⟨"alice", [90]⟩, ⟨"bob", [70]⟩]
        ⟨"alice", [90]⟩ = none ↔
      (⟨"alice", [90]⟩ : UserRec).quizAttempts = []) :=
  leaderboard_top10_and_rank [⟨"alice", [90]⟩, ⟨"bob", [70]⟩]
    ⟨"alice", [90]⟩ (by simp) (by decide)

end QuizGrid
